import Mathlib

/-!
Verification development for the federated-learning orchestration core in
`rest_rpc/training/core/server.py` (synergos_ttp).

The Python module is shallowly embedded as executable Lean definitions:

* record payloads (`tinydb` documents) become association lists of
  `String × Value` with Python-dict update semantics;
* the module-level mutable references `sy.local_worker` and
  `grid_hook.local_worker` become fields of an explicit state `GState`
  threaded through the operations;
* exceptions become `Except PyExn`, with `OSError` as the only class the
  source's `except OSError:` clause catches;
* the observable calls a session performs (governor signals, worker
  opens, registry removals, reference deletions) are emitted as an
  explicit event trace, in source order.
-/

deriving instance DecidableEq for Except

/-- Exception classes relevant to `server.py`'s control flow.  `osError`
stands for Python's `OSError` (the only class caught in
`start_expt_run_training`); `wsError` for a websocket-library error that is
not an `OSError`; `valueError` for an arbitrary other exception raised by
training; `nameError` for the `NameError` raised by reading an unbound
local variable. -/
inductive PyExn where
  | osError
  | wsError
  | valueError
  | nameError
deriving DecidableEq, Repr

/-- Whether an exception class is (a subclass of) `OSError`, i.e. is caught
by the `except OSError:` clause in `start_expt_run_training`. -/
def PyExn.isOSError : PyExn → Bool
  | .osError => true
  | _ => false

/-- Field values occurring in registration/participant payloads. -/
inductive Value where
  | str (s : String)
  | bool (b : Bool)
  | nat (n : Nat)
deriving DecidableEq, Repr

/-- A Python dict of domain fields, as an association list.  Keys are
unique in any dict produced by the runtime; the operations below use
first-match semantics, which agrees with dict semantics on such lists. -/
def Config : Type := List (String × Value)

instance : DecidableEq Config := inferInstanceAs (DecidableEq (List (String × Value)))

/-- Lookup of a key in a payload (Python `config[k]`, as an `Option`). -/
def lookupKey (c : Config) (k : String) : Option Value :=
  (c.find? (fun kv => kv.1 == k)).map (·.2)

/-- Python `config[k] = v`: replace the (first) binding of `k`, or append
a fresh binding when `k` is absent. -/
def setKey : Config → String → Value → Config
  | [], k, v => [(k, v)]
  | kv :: rest, k, v =>
    if kv.1 == k then (k, v) :: rest else kv :: setKey rest k v

/-- Python `config.pop(k)`: drop the binding of `k`. -/
def popKey (c : Config) (k : String) : Config :=
  c.filter (fun kv => kv.1 != k)

/-- Internal-only metadata field names stripped from every record payload
before it is handed onward. -/
def internal_keys : List String := ["doc_id", "created_at"]

/-- Modelled from the spec: `RPCFormatter.strip_keys` lives in
`rest_rpc/training/core/utils.py`, which is not part of the sources here.
Per the spec, the core "strips a documented set of internal-only fields
before handing a record's payload onward (e.g., an internal 'doc id', an
alternate local-only port)"; the alternate local port (`f_port`) is popped
separately by `connect_to_workers` itself, so `strip_keys` removes the
fixed internal metadata fields. -/
def strip_keys (c : Config) : Config :=
  c.filter (fun kv => !(internal_keys.contains kv.1))

/-- Combination key: the `key` sub-mapping of a run record,
`(project_id, expt_id, run_id)`. -/
structure CombKey where
  project_id : String
  expt_id : String
  run_id : String
deriving DecidableEq, Repr

/-- A registration record, as consumed by `connect_to_workers`: only its
`participant` payload is read. -/
structure RegRecord where
  participant : Config
deriving DecidableEq

/-- An experiment record, as consumed by `start_proc`'s scheduling loop:
only `expt_record['key']['expt_id']` is read there. -/
structure ExptRecord where
  expt_id : String
deriving DecidableEq, Repr

/-- A run record, as consumed by `start_proc`'s scheduling loop: only
`run_record['key']` is read there. -/
structure RunRecord where
  key : CombKey
deriving DecidableEq, Repr

/-- A `WebsocketClientWorker` as far as its locally-chosen configuration
is concerned (the hook and `is_client_worker=False` arguments are fixed at
every call site). -/
structure WorkerHandle where
  config : Config
deriving DecidableEq

/-- Embedding of `connect_to_workers` (server.py lines 106-146), the
configuration construction: for each registration record, strip internal
fields from `reg_record['participant']`, pop `f_port`, overwrite
`log_msgs` and `verbose` with the session-level arguments, and open one
`WebsocketClientWorker` with that configuration.  The `keys` and
`dockerised` parameters are accepted, as in the source signature, but do
not influence any configuration. -/
def connect_to_workers (keys : CombKey) (reg_records : List RegRecord)
    (dockerised log_msgs verbose : Bool) : List WorkerHandle :=
  reg_records.map (fun reg_record =>
    let config := strip_keys reg_record.participant
    let config := popKey config "f_port"
    let config := setKey config "log_msgs" (.bool log_msgs)
    let config := setKey config "verbose" (.bool verbose)
    ⟨config⟩)

/-! ## Global identity state

`server.py` keeps two module-level references to the process-wide active
worker identity: `sy.local_worker` and `grid_hook.local_worker`.  At import
time `REF_WORKER = sy.local_worker` snapshots the pre-existing reference
identity.  A `WorkerRef` is a worker object: `uid` distinguishes distinct
objects (Python identity), `id` is the worker's id string. -/

/-- A syft worker object reference. -/
structure WorkerRef where
  uid : Nat
  id : String
  log_msgs : Bool
  verbose : Bool
deriving DecidableEq, Repr

/-- The reference identity snapshotted at module import
(`REF_WORKER = sy.local_worker`); syft's default local worker id. -/
def REF_WORKER : WorkerRef := ⟨0, "me", false, false⟩

/-- The mutable module-level state of `server.py`: the two global identity
references and a counter supplying fresh object identities. -/
structure GState where
  sy_local_worker : WorkerRef
  grid_local_worker : WorkerRef
  next_uid : Nat
deriving DecidableEq, Repr

/-- The module state right after import: both globals hold `REF_WORKER`. -/
def initState : GState := ⟨REF_WORKER, REF_WORKER, 1⟩

/-- Embedding of `connect_to_ttp` (server.py lines 71-103): construct a
fresh `VirtualWorker` with id `'ttp'`, assign it to both
`sy.local_worker` and `grid_hook.local_worker`, and return
`grid_hook.local_worker`. -/
def connect_to_ttp (log_msgs verbose : Bool) (s : GState) : WorkerRef × GState :=
  let ttp : WorkerRef := ⟨s.next_uid, "ttp", log_msgs, verbose⟩
  let s : GState :=
    { sy_local_worker := ttp, grid_local_worker := ttp, next_uid := s.next_uid + 1 }
  (s.grid_local_worker, s)

/-! ## Session event traces

The observable calls a session performs, in source order.  Worker indices
refer to positions in the session's registration list. -/

/-- Observable events of one training session. -/
inductive Event where
  | govInit
  | govTerminate
  | openTTP
  | openWorker (i : Nat)
  | restoreIdentity
  | removeTTPRegistry
  | delTTP
  | removeWorkerRegistry (i : Nat)
  | delWorker (i : Nat)
  | fitCall
  | exportCall
deriving DecidableEq, Repr

/-- Environment behaviour of the external collaborators during one
session: `connFail = some (k, e)` means the `WebsocketClientWorker`
constructor raises exception class `e` on the registration at index `k`
(all earlier ones connect); `fitExn = some e` means `fl_expt.fit()` raises
`e`. -/
structure Env where
  connFail : Option (Nat × PyExn)
  fitExn : Option PyExn
deriving DecidableEq, Repr

namespace Session

/-- Trace semantics of the `connect_to_workers` loop for `n` registration
records: record `i` emits `openWorker i`; when the environment fails the
constructor at index `k < n`, the exception propagates out of the bare
`for` loop with no cleanup, after records `0..k-1` have connected.  The
result is the number of workers opened on success. -/
def connect_to_workers_run (env : Env) (n : Nat) : List Event × Except PyExn Nat :=
  match env.connFail with
  | some (k, e) =>
    if k < n then ((List.range k).map .openWorker, .error e)
    else ((List.range n).map .openWorker, .ok n)
  | none => ((List.range n).map .openWorker, .ok n)

/-- Embedding of `terminate_connections` (server.py lines 149-194): first
restore both global identity references to `REF_WORKER`, then remove the
TTP from the local worker registry and delete it, then for each worker in
order call `remove_worker_from_local_worker_registry()` and delete the
reference. -/
def terminate_connections (s : GState) (n : Nat) : GState × List Event :=
  ({ s with grid_local_worker := REF_WORKER, sy_local_worker := REF_WORKER },
   [.restoreIdentity, .removeTTPRegistry, .delTTP] ++
     (List.range n).flatMap (fun i => [.removeWorkerRegistry i, .delWorker i]))

/-- Embedding of the inner `train_combination` closure (server.py lines
276-337): open the TTP, open the workers, load model and arguments, run
`fit()` and `export()`, then `terminate_connections`.  There is no
`try`/`finally`: an exception while opening workers or inside `fit()`
propagates immediately and `terminate_connections` is not reached. -/
def train_combination (env : Env) (keys : CombKey) (log_msgs verbose : Bool)
    (n : Nat) (s : GState) : List Event × GState × Except PyExn (List String) :=
  let (_ttp, s1) := connect_to_ttp log_msgs verbose s
  let (evw, wres) := connect_to_workers_run env n
  match wres with
  | .error e => ([.openTTP] ++ evw, s1, .error e)
  | .ok nw =>
    match env.fitExn with
    | some e => ([.openTTP] ++ evw ++ [.fitCall], s1, .error e)
    | none =>
      let out_paths := [keys.project_id ++ "/" ++ keys.expt_id ++ "/" ++ keys.run_id]
      let (s2, evt) := terminate_connections s1 nw
      ([.openTTP] ++ evw ++ [.fitCall, .exportCall] ++ evt, s2, .ok out_paths)

/-- Embedding of `start_expt_run_training` (server.py lines 261-370):
`governor.initialise`, then `results = train_combination()` inside a
`try` whose only handler is `except OSError`, then `governor.terminate`,
then `return results`.  When `train_combination` raised an `OSError`, the
handler swallowed it, so `results` was never bound and the final
`return results` raises `NameError`.  When it raised anything else, the
exception propagates before `governor.terminate` is reached. -/
def start_expt_run_training (env : Env) (keys : CombKey)
    (dockerised log_msgs verbose : Bool) (n : Nat) (s : GState) :
    List Event × GState × Except PyExn (List String) :=
  let (evT, s1, res) := train_combination env keys log_msgs verbose n s
  match res with
  | .ok out_paths => ([.govInit] ++ evT ++ [.govTerminate], s1, .ok out_paths)
  | .error e =>
    if e.isOSError then ([.govInit] ++ evT ++ [.govTerminate], s1, .error .nameError)
    else ([.govInit] ++ evT, s1, .error e)

end Session

/-- Embedding of the scheduling loop of `start_proc` (server.py lines
409-431): the `training_combinations` dict.  For every experiment record,
and every run record whose `expt_id` matches, insert the combination
keyed by the run's `key` into the dict.  `dictInsert` has Python-dict
semantics: an existing key keeps its position and its value is
overwritten, a fresh key is appended. -/
def dictInsert {α : Type} (m : List (CombKey × α)) (k : CombKey) (v : α) :
    List (CombKey × α) :=
  if m.any (fun kv => kv.1 = k) then
    m.map (fun kv => if kv.1 = k then (k, v) else kv)
  else m ++ [(k, v)]

/-- The `training_combinations` dict built by `start_proc`: entries map a
combination key to the experiment and run records that produced it (the
other entries of `project_expt_run_params` are the session-level constants
`registrations`, `dockerised`, `log_msgs`, `verbose`). -/
def training_combinations (experiments : List ExptRecord) (runs : List RunRecord) :
    List (CombKey × (ExptRecord × RunRecord)) :=
  experiments.foldl (fun acc expt_record =>
    runs.foldl (fun acc run_record =>
      if run_record.key.expt_id = expt_record.expt_id then
        dictInsert acc run_record.key (expt_record, run_record)
      else acc) acc) []

/-- The matching (experiment, run) pairs in scheduling order, as a flat
list: the inner join the spec describes, before any dict-key collapsing. -/
def matchingPairs (experiments : List ExptRecord) (runs : List RunRecord) :
    List (CombKey × (ExptRecord × RunRecord)) :=
  experiments.flatMap (fun expt_record =>
    (runs.filter (fun run_record => run_record.key.expt_id = expt_record.expt_id)).map
      (fun run_record => (run_record.key, (expt_record, run_record))))

namespace Session

/-- The sequential driver of `start_proc` (server.py lines 491-496): the
dict comprehension `{key: start_expt_run_training(**kwargs) for ...}`
evaluates the sessions in order and aborts on the first exception. -/
def run_combinations (envs : CombKey → Env) (dockerised log_msgs verbose : Bool)
    (n : Nat) :
    List (CombKey × (ExptRecord × RunRecord)) → GState →
      GState × Except PyExn (List (CombKey × List String))
  | [], s => (s, .ok [])
  | (k, _) :: rest, s =>
    match start_expt_run_training (envs k) k dockerised log_msgs verbose n s with
    | (_, s1, .ok out_paths) =>
      match run_combinations envs dockerised log_msgs verbose n rest s1 with
      | (s2, .ok tail) => (s2, .ok ((k, out_paths) :: tail))
      | (s2, .error e) => (s2, .error e)
    | (_, s1, .error e) => (s1, .error e)

/-- Embedding of `start_proc` (server.py lines 393-496): build the
`training_combinations` dict, then run every combination sequentially
through `start_expt_run_training`. -/
def start_proc (envs : CombKey → Env) (experiments : List ExptRecord)
    (runs : List RunRecord) (dockerised log_msgs verbose : Bool) (n : Nat)
    (s : GState) : GState × Except PyExn (List (CombKey × List String)) :=
  run_combinations envs dockerised log_msgs verbose n
    (training_combinations experiments runs) s

end Session

/-! ## Helper lemmas -/

theorem flatMap_pair_length {α : Type} (f g : Nat → α) (n : Nat) :
    ((List.range n).flatMap (fun j => [f j, g j])).length = 2 * n := by
  induction n with
  | zero => rfl
  | succ m ih =>
    rw [List.range_succ]
    simp only [List.flatMap_append, List.length_append, ih]
    simp [Nat.mul_succ]

theorem flatMap_pair_getElem {α : Type} (f g : Nat → α) (n i : Nat) (h : i < n) :
    (((List.range n).flatMap (fun j => [f j, g j]))[2 * i]? = some (f i)) ∧
    (((List.range n).flatMap (fun j => [f j, g j]))[2 * i + 1]? = some (g i)) := by
  induction n with
  | zero => omega
  | succ m ih =>
    rw [List.range_succ]
    simp only [List.flatMap_append]
    have hl := flatMap_pair_length f g m
    rcases Nat.lt_or_ge i m with hm | hm
    · obtain ⟨ih1, ih2⟩ := ih hm
      constructor
      · rw [List.getElem?_append]
        simp only [ih1, hl]
        have : 2 * i < 2 * m := by omega
        simp [this]
      · rw [List.getElem?_append]
        simp only [ih2, hl]
        have : 2 * i + 1 < 2 * m := by omega
        simp [this, ih2]
    · have him : i = m := by omega
      subst him
      constructor
      · rw [List.getElem?_append_right (by omega)]
        simp [hl]
      · rw [List.getElem?_append_right (by omega)]
        have h1 : 2 * i + 1 - ((List.range i).flatMap (fun j => [f j, g j])).length = 1 := by
          omega
        rw [h1]
        simp

/-! ## C10: worker configurations do not depend on `keys` or `dockerised` -/

/-- C10: the list of worker-handle configurations produced by
`connect_to_workers` does not depend on its `keys` or `dockerised`
arguments — two calls with the same `reg_records`, `log_msgs` and
`verbose` but different `keys` or `dockerised` values construct identical
worker configurations, in the same order. -/
theorem C10_configs_independent_of_keys_dockerised (keys₁ keys₂ : CombKey)
    (d₁ d₂ : Bool) (reg_records : List RegRecord) (log_msgs verbose : Bool) :
    connect_to_workers keys₁ reg_records d₁ log_msgs verbose =
      connect_to_workers keys₂ reg_records d₂ log_msgs verbose := rfl

/-! ## C8: `connect_to_ttp` installs a fresh coordinator identity -/

/-- C8: `connect_to_ttp` constructs a new coordinator identity with id
`'ttp'` (fresh object: its uid is the state's next fresh uid), installs it
in both global references `sy.local_worker` and `grid_hook.local_worker`,
and returns that same newly-created object.  It stays the active identity
until `terminate_connections` runs: on every session path whose outcome is
an exception (so `terminate_connections` was never reached), both globals
still hold the ttp created at session start, and on the success path
(where `terminate_connections` did run) they hold `REF_WORKER` again. -/
theorem C8_connect_to_ttp_installs_identity (log_msgs verbose : Bool) (s : GState) :
    ((connect_to_ttp log_msgs verbose s).1.id = "ttp" ∧
     (connect_to_ttp log_msgs verbose s).1.uid = s.next_uid ∧
     (connect_to_ttp log_msgs verbose s).2.sy_local_worker
        = (connect_to_ttp log_msgs verbose s).1 ∧
     (connect_to_ttp log_msgs verbose s).2.grid_local_worker
        = (connect_to_ttp log_msgs verbose s).1) ∧
    (∀ env keys n e,
       (Session.train_combination env keys log_msgs verbose n s).2.2 = .error e →
       (Session.train_combination env keys log_msgs verbose n s).2.1.sy_local_worker
          = (connect_to_ttp log_msgs verbose s).1 ∧
       (Session.train_combination env keys log_msgs verbose n s).2.1.grid_local_worker
          = (connect_to_ttp log_msgs verbose s).1) ∧
    (∀ env keys n p,
       (Session.train_combination env keys log_msgs verbose n s).2.2 = .ok p →
       (Session.train_combination env keys log_msgs verbose n s).2.1.sy_local_worker
          = REF_WORKER ∧
       (Session.train_combination env keys log_msgs verbose n s).2.1.grid_local_worker
          = REF_WORKER) := by
  refine ⟨⟨rfl, rfl, rfl, rfl⟩, ?_, ?_⟩
  · intro env keys n e he
    cases env with
    | mk connFail fitExn =>
      cases connFail with
      | some kf =>
        cases kf with
        | mk k f =>
          by_cases hk : k < n
          · simp [Session.train_combination, Session.connect_to_workers_run, hk,
              connect_to_ttp] at he ⊢
          · cases fitExn with
            | some fe =>
              simp [Session.train_combination, Session.connect_to_workers_run, hk,
                connect_to_ttp] at he ⊢
            | none =>
              simp [Session.train_combination, Session.connect_to_workers_run, hk,
                Session.terminate_connections, connect_to_ttp] at he
      | none =>
        cases fitExn with
        | some fe =>
          simp [Session.train_combination, Session.connect_to_workers_run,
            connect_to_ttp] at he ⊢
        | none =>
          simp [Session.train_combination, Session.connect_to_workers_run,
            Session.terminate_connections, connect_to_ttp] at he
  · intro env keys n p hp
    cases env with
    | mk connFail fitExn =>
      cases connFail with
      | some kf =>
        cases kf with
        | mk k f =>
          by_cases hk : k < n
          · simp [Session.train_combination, Session.connect_to_workers_run, hk,
              connect_to_ttp] at hp
          · cases fitExn with
            | some fe =>
              simp [Session.train_combination, Session.connect_to_workers_run, hk,
                connect_to_ttp] at hp
            | none =>
              simp [Session.train_combination, Session.connect_to_workers_run, hk,
                Session.terminate_connections, connect_to_ttp]
      | none =>
        cases fitExn with
        | some fe =>
          simp [Session.train_combination, Session.connect_to_workers_run,
            connect_to_ttp] at hp
        | none =>
          simp [Session.train_combination, Session.connect_to_workers_run,
            Session.terminate_connections, connect_to_ttp]

/-- Witness for C8 at concrete inputs: an error-path session (fit raises)
keeps the freshly-installed ttp in both globals, and a success-path
session restores `REF_WORKER`. -/
theorem C8_witness :
    ((Session.train_combination ⟨none, some .valueError⟩ ⟨"p", "e", "r"⟩ false false 1
        initState).2.1.sy_local_worker = (connect_to_ttp false false initState).1 ∧
     (Session.train_combination ⟨none, some .valueError⟩ ⟨"p", "e", "r"⟩ false false 1
        initState).2.1.grid_local_worker = (connect_to_ttp false false initState).1) ∧
    ((Session.train_combination ⟨none, none⟩ ⟨"p", "e", "r"⟩ false false 1
        initState).2.1.sy_local_worker = REF_WORKER ∧
     (Session.train_combination ⟨none, none⟩ ⟨"p", "e", "r"⟩ false false 1
        initState).2.1.grid_local_worker = REF_WORKER) :=
  ⟨(C8_connect_to_ttp_installs_identity false false initState).2.1
      ⟨none, some .valueError⟩ ⟨"p", "e", "r"⟩ 1 .valueError rfl,
   (C8_connect_to_ttp_installs_identity false false initState).2.2
      ⟨none, none⟩ ⟨"p", "e", "r"⟩ 1 ["p/e/r"] rfl⟩

/-! ## C6: teardown ordering in `terminate_connections` -/

/-- C6: in every execution of `terminate_connections`, both global
identity references are restored to `REF_WORKER`, the restore event is the
very first event (so it precedes the coordinator deletion at position 2),
and for every worker `i` the registry-removal event (position `3 + 2i`)
immediately precedes that worker's deletion/release event (position
`4 + 2i`). -/
theorem C6_terminate_connections_ordering (s : GState) (n : Nat) :
    ((Session.terminate_connections s n).1.sy_local_worker = REF_WORKER ∧
     (Session.terminate_connections s n).1.grid_local_worker = REF_WORKER) ∧
    ((Session.terminate_connections s n).2[0]? = some .restoreIdentity ∧
     (Session.terminate_connections s n).2[2]? = some .delTTP) ∧
    (∀ i, i < n →
      (Session.terminate_connections s n).2[3 + 2 * i]?
          = some (.removeWorkerRegistry i) ∧
      (Session.terminate_connections s n).2[4 + 2 * i]? = some (.delWorker i)) := by
  refine ⟨⟨rfl, rfl⟩, ⟨?_, ?_⟩, ?_⟩
  · simp [Session.terminate_connections]
  · simp [Session.terminate_connections]
  intro i hi
  have h := flatMap_pair_getElem (fun j => Event.removeWorkerRegistry j)
    (fun j => Event.delWorker j) n i hi
  have h3 : 3 + 2 * i = 2 * i + 3 := by omega
  have h4 : 4 + 2 * i = 2 * i + 1 + 3 := by omega
  constructor
  · rw [h3]
    simpa [Session.terminate_connections] using h.1
  · rw [h4]
    simpa [Session.terminate_connections] using h.2

/-- Witness for C6 at a concrete input: a two-worker teardown restores the
reference identity and orders each registry removal before its release. -/
theorem C6_witness :
    ((Session.terminate_connections initState 2).1.sy_local_worker = REF_WORKER ∧
     (Session.terminate_connections initState 2).1.grid_local_worker = REF_WORKER) ∧
    ((Session.terminate_connections initState 2).2[3 + 2 * 1]?
        = some (.removeWorkerRegistry 1) ∧
     (Session.terminate_connections initState 2).2[4 + 2 * 1]?
        = some (.delWorker 1)) :=
  ⟨(C6_terminate_connections_ordering initState 2).1,
   (C6_terminate_connections_ordering initState 2).2.2 1 (by decide)⟩

/-! ## Lookup lemmas for payload operations -/

theorem lookupKey_setKey_self (c : Config) (k : String) (v : Value) :
    lookupKey (setKey c k v) k = some v := by
  induction c with
  | nil => simp [setKey, lookupKey]
  | cons kv rest ih =>
    by_cases h : kv.1 == k
    · simp [setKey, h, lookupKey]
    · simp only [setKey, h, Bool.false_eq_true, if_false]
      simpa [lookupKey, List.find?, h] using ih

theorem lookupKey_setKey_other (c : Config) (k k' : String) (v : Value)
    (h : k' ≠ k) :
    lookupKey (setKey c k v) k' = lookupKey c k' := by
  induction c with
  | nil =>
    have hne : (k == k') = false := by
      simp
      intro he
      exact h he.symm
    simp [setKey, lookupKey, List.find?, hne]
  | cons kv rest ih =>
    by_cases hkv : kv.1 == k
    · have hk1 : kv.1 = k := by simpa using hkv
      have hne : (k == k') = false := by
        simp
        intro he
        exact h he.symm
      have hne2 : (kv.1 == k') = false := by
        rw [hk1]
        exact hne
      simp [setKey, hkv, lookupKey, List.find?, hne, hne2]
    · by_cases hkv2 : kv.1 == k'
      · simp [setKey, hkv, lookupKey, List.find?, hkv2]
      · simp only [setKey, hkv, Bool.false_eq_true, if_false]
        simpa [lookupKey, List.find?, hkv2] using ih

theorem lookupKey_filter_keep (c : Config) (p : String → Bool) (k : String)
    (h : p k = true) :
    lookupKey (c.filter (fun kv => p kv.1)) k = lookupKey c k := by
  induction c with
  | nil => rfl
  | cons kv rest ih =>
    by_cases hkv : kv.1 == k
    · have hk1 : kv.1 = k := by simpa using hkv
      simp [List.filter, hk1, h, lookupKey, List.find?]
    · by_cases hp : p kv.1
      · simp only [List.filter, hp]
        simpa [lookupKey, List.find?, hkv] using ih
      · simp only [List.filter, hp, Bool.false_eq_true, if_false]
        simpa [lookupKey, List.find?, hkv] using ih

theorem lookupKey_filter_drop (c : Config) (p : String → Bool) (k : String)
    (h : p k = false) :
    lookupKey (c.filter (fun kv => p kv.1)) k = none := by
  induction c with
  | nil => rfl
  | cons kv rest ih =>
    by_cases hkv : kv.1 == k
    · have hk1 : kv.1 = k := by simpa using hkv
      simp only [List.filter, hk1, h, Bool.false_eq_true, if_false]
      exact ih
    · by_cases hp : p kv.1
      · simp only [List.filter, hp]
        simpa [lookupKey, List.find?, hkv] using ih
      · simp only [List.filter, hp, Bool.false_eq_true, if_false]
        exact ih

theorem lookupKey_strip_keys_keep (c : Config) (k : String)
    (h : internal_keys.contains k = false) :
    lookupKey (strip_keys c) k = lookupKey c k :=
  lookupKey_filter_keep c (fun x => !(internal_keys.contains x)) k (by simpa using h)

theorem lookupKey_strip_keys_drop (c : Config) (k : String)
    (h : internal_keys.contains k = true) :
    lookupKey (strip_keys c) k = none :=
  lookupKey_filter_drop c (fun x => !(internal_keys.contains x)) k (by simpa using h)

theorem lookupKey_popKey_self (c : Config) (k : String) :
    lookupKey (popKey c k) k = none :=
  lookupKey_filter_drop c (fun x => x != k) k (by simp)

theorem lookupKey_popKey_other (c : Config) (k k' : String) (h : k' ≠ k) :
    lookupKey (popKey c k) k' = lookupKey c k' :=
  lookupKey_filter_keep c (fun x => x != k) k' (by simp [h])

/-! ## C7: one handle per registration record, stripped and overlaid -/

/-- C7: `connect_to_workers` produces exactly one worker handle per
registration record, in input order and without deduplication (the `i`-th
handle comes from the `i`-th record, so records with duplicate participant
ids still each yield a handle); each handle's configuration is the
record's `participant` payload with the internal-only fields stripped and
`f_port` removed, and with `log_msgs` and `verbose` bound to the
session-level arguments; every other field of the payload is preserved
unchanged. -/
theorem C7_connect_to_workers_one_handle_per_record (keys : CombKey)
    (reg_records : List RegRecord) (dockerised log_msgs verbose : Bool) :
    (connect_to_workers keys reg_records dockerised log_msgs verbose).length
        = reg_records.length ∧
    ∀ i (h : i < reg_records.length),
      let cfg := ((connect_to_workers keys reg_records dockerised log_msgs
        verbose).get ⟨i, by simpa [connect_to_workers] using h⟩).config
      lookupKey cfg "f_port" = none ∧
      (∀ k, internal_keys.contains k → lookupKey cfg k = none) ∧
      lookupKey cfg "log_msgs" = some (.bool log_msgs) ∧
      lookupKey cfg "verbose" = some (.bool verbose) ∧
      ∀ k, internal_keys.contains k = false → k ≠ "f_port" → k ≠ "log_msgs" →
        k ≠ "verbose" →
        lookupKey cfg k = lookupKey (reg_records.get ⟨i, h⟩).participant k := by
  constructor
  · simp [connect_to_workers]
  · intro i h
    have hget : (connect_to_workers keys reg_records dockerised log_msgs
        verbose).get ⟨i, by simpa [connect_to_workers] using h⟩ =
        (fun reg_record : RegRecord =>
          let config := strip_keys reg_record.participant
          let config := popKey config "f_port"
          let config := setKey config "log_msgs" (.bool log_msgs)
          let config := setKey config "verbose" (.bool verbose)
          (⟨config⟩ : WorkerHandle)) (reg_records.get ⟨i, h⟩) := by
      simp [connect_to_workers]
    intro cfg
    have hcfg : cfg = setKey (setKey (popKey
        (strip_keys (reg_records.get ⟨i, h⟩).participant) "f_port")
        "log_msgs" (.bool log_msgs)) "verbose" (.bool verbose) := by
      simp only [cfg, hget]
    rw [hcfg]
    set payload := (reg_records.get ⟨i, h⟩).participant with hp
    refine ⟨?_, ?_, ?_, ?_, ?_⟩
    · rw [lookupKey_setKey_other _ _ _ _ (by decide),
        lookupKey_setKey_other _ _ _ _ (by decide)]
      exact lookupKey_popKey_self _ _
    · intro k hk
      have hklm : k ≠ "log_msgs" := by
        intro he
        rw [he] at hk
        simp [internal_keys] at hk
      have hkv : k ≠ "verbose" := by
        intro he
        rw [he] at hk
        simp [internal_keys] at hk
      rw [lookupKey_setKey_other _ _ _ _ hkv, lookupKey_setKey_other _ _ _ _ hklm]
      by_cases hf : k = "f_port"
      · rw [hf]
        exact lookupKey_popKey_self _ _
      · rw [lookupKey_popKey_other _ _ _ hf]
        exact lookupKey_strip_keys_drop _ _ hk
    · rw [lookupKey_setKey_other _ _ _ _ (by decide)]
      exact lookupKey_setKey_self _ _ _
    · exact lookupKey_setKey_self _ _ _
    · intro k hk hkf hklm hkv
      rw [lookupKey_setKey_other _ _ _ _ hkv, lookupKey_setKey_other _ _ _ _ hklm,
        lookupKey_popKey_other _ _ _ hkf]
      exact lookupKey_strip_keys_keep _ _ hk

/-- Witness for C7 at a concrete input: one registration record carrying a
participant id, host, port, `f_port`, stale logging flags and an internal
`doc_id`; the single resulting handle drops `f_port` and `doc_id`,
overrides the logging flags, and keeps `id`, `host` and `port`. -/
theorem C7_witness :
    (connect_to_workers ⟨"p", "e", "r"⟩
        [⟨[("id", .str "w1"), ("host", .str "h"), ("port", .nat 8020),
           ("log_msgs", .bool false), ("verbose", .bool false),
           ("f_port", .nat 5000), ("doc_id", .nat 7)]⟩]
        true true true).length = 1 ∧
    (0 : Nat) < 1 ∧
    lookupKey ((connect_to_workers ⟨"p", "e", "r"⟩
        [⟨[("id", .str "w1"), ("host", .str "h"), ("port", .nat 8020),
           ("log_msgs", .bool false), ("verbose", .bool false),
           ("f_port", .nat 5000), ("doc_id", .nat 7)]⟩]
        true true true).get ⟨0, by decide⟩).config "f_port" = none ∧
    lookupKey ((connect_to_workers ⟨"p", "e", "r"⟩
        [⟨[("id", .str "w1"), ("host", .str "h"), ("port", .nat 8020),
           ("log_msgs", .bool false), ("verbose", .bool false),
           ("f_port", .nat 5000), ("doc_id", .nat 7)]⟩]
        true true true).get ⟨0, by decide⟩).config "log_msgs"
      = some (.bool true) ∧
    lookupKey ((connect_to_workers ⟨"p", "e", "r"⟩
        [⟨[("id", .str "w1"), ("host", .str "h"), ("port", .nat 8020),
           ("log_msgs", .bool false), ("verbose", .bool false),
           ("f_port", .nat 5000), ("doc_id", .nat 7)]⟩]
        true true true).get ⟨0, by decide⟩).config "id" = some (.str "w1") := by
  have h := C7_connect_to_workers_one_handle_per_record ⟨"p", "e", "r"⟩
    [⟨[("id", .str "w1"), ("host", .str "h"), ("port", .nat 8020),
       ("log_msgs", .bool false), ("verbose", .bool false),
       ("f_port", .nat 5000), ("doc_id", .nat 7)]⟩] true true true
  have h0 := h.2 0 (by decide)
  exact ⟨h.1, by decide, h0.1, h0.2.2.1,
    (h0.2.2.2.2 "id" (by decide) (by decide) (by decide) (by decide)).trans
      (by decide)⟩

/-! ## Session-trace lemmas -/

theorem govTerminate_not_mem_train (env : Env) (keys : CombKey) (lm v : Bool)
    (n : Nat) (s : GState) :
    Event.govTerminate ∉ (Session.train_combination env keys lm v n s).1 := by
  cases env with
  | mk cf fe =>
    cases cf with
    | some kf =>
      cases kf with
      | mk k f =>
        by_cases hk : k < n
        · simp [Session.train_combination, Session.connect_to_workers_run, hk]
        · cases fe with
          | some e =>
            simp [Session.train_combination, Session.connect_to_workers_run, hk]
          | none =>
            simp [Session.train_combination, Session.connect_to_workers_run, hk,
              Session.terminate_connections]
    | none =>
      cases fe with
      | some e =>
        simp [Session.train_combination, Session.connect_to_workers_run]
      | none =>
        simp [Session.train_combination, Session.connect_to_workers_run,
          Session.terminate_connections]

/-! ## C9: the swallowed `OSError` turns into a `NameError` -/

/-- C9: when `train_combination` raises an `OSError`-class exception, the
`except OSError:` handler in `start_expt_run_training` swallows it and
`governor.terminate` is still invoked (exactly once), but the local
variable `results` was never bound, so the final `return results` raises a
`NameError`: the caller receives an unbound-variable exception instead of
a failure-marked result. -/
theorem C9_oserror_swallowed_then_nameerror (env : Env) (keys : CombKey)
    (dockerised log_msgs verbose : Bool) (n : Nat) (s : GState) (e : PyExn)
    (h1 : (Session.train_combination env keys log_msgs verbose n s).2.2 = .error e)
    (h2 : e.isOSError = true) :
    (Session.start_expt_run_training env keys dockerised log_msgs verbose n s).2.2
        = .error .nameError ∧
    (Session.start_expt_run_training env keys dockerised log_msgs verbose n
        s).1.count .govTerminate = 1 := by
  have hnm := govTerminate_not_mem_train env keys log_msgs verbose n s
  cases ht : Session.train_combination env keys log_msgs verbose n s with
  | mk evT rest =>
    cases rest with
    | mk s1 res =>
      rw [ht] at h1 hnm
      simp only at h1 hnm
      subst h1
      simp [Session.start_expt_run_training, ht, h2, List.count_append,
        List.count_cons, List.count_eq_zero.mpr hnm]

/-- Witness for C9 at a concrete input: one registration, `fit()` raises
`OSError`. -/
theorem C9_witness :
    (Session.train_combination ⟨none, some .osError⟩ ⟨"p", "e", "r"⟩ false false 1
        initState).2.2 = .error .osError ∧
    PyExn.osError.isOSError = true ∧
    (Session.start_expt_run_training ⟨none, some .osError⟩ ⟨"p", "e", "r"⟩ false
        false false 1 initState).2.2 = .error .nameError ∧
    (Session.start_expt_run_training ⟨none, some .osError⟩ ⟨"p", "e", "r"⟩ false
        false false 1 initState).1.count .govTerminate = 1 :=
  ⟨by decide, rfl,
   (C9_oserror_swallowed_then_nameerror ⟨none, some .osError⟩ ⟨"p", "e", "r"⟩
     false false false 1 initState .osError (by decide) rfl).1,
   (C9_oserror_swallowed_then_nameerror ⟨none, some .osError⟩ ⟨"p", "e", "r"⟩
     false false false 1 initState .osError (by decide) rfl).2⟩

/-! ## C1: `governor.terminate` is not unconditional -/

/-- C1 counterexample: with one registration and `fit()` raising an
exception that is not an `OSError` (here a `ValueError`),
`train_combination` raises, the exception propagates out of
`start_expt_run_training`, and `governor.terminate` is invoked zero
times — not exactly once as the claim states. -/
theorem C1_counterexample :
    (Session.train_combination ⟨none, some .valueError⟩ ⟨"p", "e", "r"⟩ false false
        1 initState).2.2 = .error .valueError ∧
    (Session.start_expt_run_training ⟨none, some .valueError⟩ ⟨"p", "e", "r"⟩ false
        false false 1 initState).2.2 = .error .valueError ∧
    (Session.start_expt_run_training ⟨none, some .valueError⟩ ⟨"p", "e", "r"⟩ false
        false false 1 initState).1.count .govTerminate = 0 := by
  refine ⟨by decide, by decide, by decide⟩

/-- C1 (amended): `Governor.terminate` is invoked exactly once when
`train_combination` returns normally or raises an `OSError`-class
exception (the only class the `try` block catches); when
`train_combination` raises any other exception, `terminate` is not
invoked at all and the exception propagates to the caller. -/
theorem C1_terminate_count (env : Env) (keys : CombKey)
    (dockerised log_msgs verbose : Bool) (n : Nat) (s : GState) :
    (Session.start_expt_run_training env keys dockerised log_msgs verbose n
        s).1.count .govTerminate
      = match (Session.train_combination env keys log_msgs verbose n s).2.2 with
        | .ok _ => 1
        | .error e => if e.isOSError then 1 else 0 := by
  have hnm := govTerminate_not_mem_train env keys log_msgs verbose n s
  cases ht : Session.train_combination env keys log_msgs verbose n s with
  | mk evT rest =>
    cases rest with
    | mk s1 res =>
      rw [ht] at hnm
      simp only at hnm
      cases res with
      | ok p =>
        simp [Session.start_expt_run_training, ht, List.count_append,
          List.count_cons, List.count_eq_zero.mpr hnm]
      | error e =>
        by_cases he : e.isOSError
        · simp [Session.start_expt_run_training, ht, he, List.count_append,
            List.count_cons, List.count_eq_zero.mpr hnm]
        · simp [Session.start_expt_run_training, ht, he, List.count_append,
            List.count_cons, List.count_eq_zero.mpr hnm]

/-! ## C2: worker handles are torn down only on the success path -/

/-- C2 counterexample: a session with two connectable registrations whose
`fit()` raises (here an `OSError`, the class the outer handler even
tolerates): both handles are opened, yet no `del worker` and no
registry-removal ever happens — the set of handles opened (two) differs
from the set of handles explicitly torn down (none). -/
theorem C2_counterexample :
    (Session.train_combination ⟨none, some .osError⟩ ⟨"p", "e", "r"⟩ false false 2
        initState).2.2 = .error .osError ∧
    ((Session.train_combination ⟨none, some .osError⟩ ⟨"p", "e", "r"⟩ false false 2
        initState).1.count (.openWorker 0) = 1 ∧
     (Session.train_combination ⟨none, some .osError⟩ ⟨"p", "e", "r"⟩ false false 2
        initState).1.count (.openWorker 1) = 1) ∧
    ((Session.train_combination ⟨none, some .osError⟩ ⟨"p", "e", "r"⟩ false false 2
        initState).1.count (.delWorker 0) = 0 ∧
     (Session.train_combination ⟨none, some .osError⟩ ⟨"p", "e", "r"⟩ false false 2
        initState).1.count (.delWorker 1) = 0 ∧
     (Session.train_combination ⟨none, some .osError⟩ ⟨"p", "e", "r"⟩ false false 2
        initState).1.count (.removeWorkerRegistry 0) = 0 ∧
     (Session.train_combination ⟨none, some .osError⟩ ⟨"p", "e", "r"⟩ false false 2
        initState).1.count (.removeWorkerRegistry 1) = 0) := by
  refine ⟨by decide, ⟨by decide, by decide⟩, by decide, by decide, by decide,
    by decide⟩

/-- C2 (amended): within one session whose worker connections all
establish, the set of worker handles opened equals the set explicitly torn
down only when `fit()` (and the rest of the bracket) succeeds; when
`fit()` raises, every opened handle is left without an explicit teardown
(`train_combination` has no `finally`, so `terminate_connections` is never
reached) and only garbage collection can reclaim the connections. -/
theorem C2_teardown_only_on_success (env : Env) (keys : CombKey) (lm v : Bool)
    (n : Nat) (s : GState) (hconn : env.connFail = none) :
    (env.fitExn = none →
      ∀ i, Event.openWorker i ∈ (Session.train_combination env keys lm v n s).1 ↔
        Event.delWorker i ∈ (Session.train_combination env keys lm v n s).1) ∧
    (∀ e, env.fitExn = some e →
      (∀ i, Event.delWorker i ∉ (Session.train_combination env keys lm v n s).1 ∧
            Event.removeWorkerRegistry i ∉
              (Session.train_combination env keys lm v n s).1) ∧
      (∀ i, Event.openWorker i ∈ (Session.train_combination env keys lm v n s).1 ↔
        i < n)) := by
  cases env with
  | mk cf fe =>
    simp only at hconn
    subst hconn
    constructor
    · intro hfe i
      simp only at hfe
      subst hfe
      simp [Session.train_combination, Session.connect_to_workers_run,
        Session.terminate_connections]
    · intro e hfe
      simp only at hfe
      subst hfe
      constructor
      · intro i
        simp [Session.train_combination, Session.connect_to_workers_run]
      · intro i
        simp [Session.train_combination, Session.connect_to_workers_run]

/-- Witness for C2 at a concrete input: two registrations.  On the
successful session every opened handle is torn down; on the failing one
handle 0 is opened but never deleted. -/
theorem C2_witness :
    (Event.openWorker 0 ∈ (Session.train_combination ⟨none, none⟩ ⟨"p", "e", "r"⟩
        false false 2 initState).1 ↔
      Event.delWorker 0 ∈ (Session.train_combination ⟨none, none⟩ ⟨"p", "e", "r"⟩
        false false 2 initState).1) ∧
    (Event.delWorker 0 ∉ (Session.train_combination ⟨none, some .valueError⟩
        ⟨"p", "e", "r"⟩ false false 2 initState).1 ∧
     Event.removeWorkerRegistry 0 ∉ (Session.train_combination
        ⟨none, some .valueError⟩ ⟨"p", "e", "r"⟩ false false 2 initState).1) ∧
    (Event.openWorker 0 ∈ (Session.train_combination ⟨none, some .valueError⟩
        ⟨"p", "e", "r"⟩ false false 2 initState).1 ↔ (0 : Nat) < 2) :=
  ⟨(C2_teardown_only_on_success ⟨none, none⟩ ⟨"p", "e", "r"⟩ false false 2
      initState rfl).1 rfl 0,
   ((C2_teardown_only_on_success ⟨none, some .valueError⟩ ⟨"p", "e", "r"⟩ false
      false 2 initState rfl).2 .valueError rfl).1 0,
   ((C2_teardown_only_on_success ⟨none, some .valueError⟩ ⟨"p", "e", "r"⟩ false
      false 2 initState rfl).2 .valueError rfl).2 0⟩

/-! ## C3: a partial `connect_to_workers` failure closes nothing -/

/-- C3 counterexample: three registrations, the constructor for
registration index 1 (the second record, so k = 2 in the claim's
1-indexed phrasing, with k - 1 = 1 already-opened handle) raises a
websocket error: the claim demands that the one already-opened handle be
closed before the error propagates, but no teardown event occurs at all. -/
theorem C3_counterexample :
    (Session.train_combination ⟨some (1, .wsError), none⟩ ⟨"p", "e", "r"⟩ false
        false 3 initState).2.2 = .error .wsError ∧
    (Session.train_combination ⟨some (1, .wsError), none⟩ ⟨"p", "e", "r"⟩ false
        false 3 initState).1.count (.openWorker 0) = 1 ∧
    (Session.train_combination ⟨some (1, .wsError), none⟩ ⟨"p", "e", "r"⟩ false
        false 3 initState).1.count (.delWorker 0) = 0 ∧
    (Session.train_combination ⟨some (1, .wsError), none⟩ ⟨"p", "e", "r"⟩ false
        false 3 initState).1.count (.removeWorkerRegistry 0) = 0 := by
  refine ⟨by decide, by decide, by decide, by decide⟩

/-- C3 (amended): if the `k`-th registration's connection fails to
establish, the `k - 1` already-opened worker handles from the same call
are NOT closed before the error propagates: `connect_to_workers` has no
cleanup handler, so exactly the handles with index below `k` have been
opened, no teardown event occurs, and the constructor's exception
propagates to the caller with those connections still live. -/
theorem C3_partial_open_leaks (env : Env) (keys : CombKey) (lm v : Bool)
    (n k : Nat) (e : PyExn) (s : GState)
    (hf : env.connFail = some (k, e)) (hk : k < n) :
    (Session.train_combination env keys lm v n s).2.2 = .error e ∧
    (∀ i, Event.openWorker i ∈ (Session.train_combination env keys lm v n s).1 ↔
      i < k) ∧
    (∀ i, Event.delWorker i ∉ (Session.train_combination env keys lm v n s).1 ∧
      Event.removeWorkerRegistry i ∉
        (Session.train_combination env keys lm v n s).1) := by
  cases env with
  | mk cf fe =>
    simp only at hf
    subst hf
    refine ⟨?_, ?_, ?_⟩
    · simp [Session.train_combination, Session.connect_to_workers_run, hk]
    · intro i
      simp [Session.train_combination, Session.connect_to_workers_run, hk]
    · intro i
      simp [Session.train_combination, Session.connect_to_workers_run, hk]

/-- Witness for C3 at a concrete input: the second of three registrations
fails to connect; only handle 0 was opened, nothing is torn down. -/
theorem C3_witness :
    (Session.train_combination ⟨some (1, .wsError), none⟩ ⟨"p", "e", "r"⟩ false
        false 3 initState).2.2 = .error .wsError ∧
    (Event.openWorker 0 ∈ (Session.train_combination ⟨some (1, .wsError), none⟩
        ⟨"p", "e", "r"⟩ false false 3 initState).1 ↔ (0 : Nat) < 1) ∧
    (Event.delWorker 0 ∉ (Session.train_combination ⟨some (1, .wsError), none⟩
        ⟨"p", "e", "r"⟩ false false 3 initState).1 ∧
     Event.removeWorkerRegistry 0 ∉ (Session.train_combination
        ⟨some (1, .wsError), none⟩ ⟨"p", "e", "r"⟩ false false 3 initState).1) :=
  ⟨(C3_partial_open_leaks ⟨some (1, .wsError), none⟩ ⟨"p", "e", "r"⟩ false false
      3 1 .wsError initState rfl (by decide)).1,
   (C3_partial_open_leaks ⟨some (1, .wsError), none⟩ ⟨"p", "e", "r"⟩ false false
      3 1 .wsError initState rfl (by decide)).2.1 0,
   (C3_partial_open_leaks ⟨some (1, .wsError), none⟩ ⟨"p", "e", "r"⟩ false false
      3 1 .wsError initState rfl (by decide)).2.2 0⟩

/-! ## C4: `start_proc` aborts on the first failing combination -/

theorem start_expt_ok_of_env_ok (env : Env) (keys : CombKey)
    (dockerised log_msgs verbose : Bool) (n : Nat) (s : GState)
    (hc : env.connFail = none) (hf : env.fitExn = none) :
    (Session.start_expt_run_training env keys dockerised log_msgs verbose n
        s).2.2 =
      .ok [keys.project_id ++ "/" ++ keys.expt_id ++ "/" ++ keys.run_id] := by
  cases env with
  | mk cf fe =>
    simp only at hc hf
    subst hc
    subst hf
    simp [Session.start_expt_run_training, Session.train_combination,
      Session.connect_to_workers_run, Session.terminate_connections]

theorem start_expt_fit_fail (env : Env) (keys : CombKey)
    (dockerised log_msgs verbose : Bool) (n : Nat) (s : GState) (e : PyExn)
    (hc : env.connFail = none) (hf : env.fitExn = some e) :
    (Session.start_expt_run_training env keys dockerised log_msgs verbose n
        s).2.2 = .error (if e.isOSError then PyExn.nameError else e) := by
  cases env with
  | mk cf fe =>
    simp only at hc hf
    subst hc
    subst hf
    by_cases he : e.isOSError
    · simp [Session.start_expt_run_training, Session.train_combination,
        Session.connect_to_workers_run, he]
    · simp [Session.start_expt_run_training, Session.train_combination,
        Session.connect_to_workers_run, he]

theorem run_combinations_ok (envs : CombKey → Env)
    (dockerised log_msgs verbose : Bool) (n : Nat)
    (combos : List (CombKey × (ExptRecord × RunRecord)))
    (hok : ∀ kk, (envs kk).connFail = none ∧ (envs kk).fitExn = none) :
    ∀ s, (Session.run_combinations envs dockerised log_msgs verbose n combos
        s).2 =
      .ok (combos.map (fun kv =>
        (kv.1, [kv.1.project_id ++ "/" ++ kv.1.expt_id ++ "/" ++
          kv.1.run_id]))) := by
  induction combos with
  | nil =>
    intro s
    simp [Session.run_combinations]
  | cons c rest ih =>
    intro s
    cases c with
    | mk ck cp =>
      have hres := start_expt_ok_of_env_ok (envs ck) ck dockerised log_msgs
        verbose n s (hok ck).1 (hok ck).2
      cases ht : Session.start_expt_run_training (envs ck) ck dockerised
          log_msgs verbose n s with
      | mk ev rest2 =>
        cases rest2 with
        | mk s1 res =>
          rw [ht] at hres
          simp only at hres
          subst hres
          have ih1 := ih s1
          cases ht2 : Session.run_combinations envs dockerised log_msgs verbose
              n rest s1 with
          | mk s2 res2 =>
            rw [ht2] at ih1
            simp only at ih1
            subst ih1
            simp [Session.run_combinations, ht, ht2]

theorem run_combinations_append_error (envs : CombKey → Env)
    (dockerised log_msgs verbose : Bool) (n : Nat)
    (pre : List (CombKey × (ExptRecord × RunRecord)))
    (k0 : CombKey) (p0 : ExptRecord × RunRecord)
    (rest : List (CombKey × (ExptRecord × RunRecord))) (e : PyExn)
    (hok : ∀ kv ∈ pre, (envs kv.1).connFail = none ∧ (envs kv.1).fitExn = none)
    (hfail : ∀ s2, (Session.start_expt_run_training (envs k0) k0 dockerised
      log_msgs verbose n s2).2.2 = .error e) :
    ∀ s, (Session.run_combinations envs dockerised log_msgs verbose n
        (pre ++ (k0, p0) :: rest) s).2 = .error e := by
  induction pre with
  | nil =>
    intro s
    have hres := hfail s
    cases ht : Session.start_expt_run_training (envs k0) k0 dockerised
        log_msgs verbose n s with
    | mk ev rest2 =>
      cases rest2 with
      | mk s1 res =>
        rw [ht] at hres
        simp only at hres
        subst hres
        simp [Session.run_combinations, ht]
  | cons c pre2 ih =>
    intro s
    cases c with
    | mk ck cp =>
      have hres := start_expt_ok_of_env_ok (envs ck) ck dockerised log_msgs
        verbose n s (hok (ck, cp) (by simp)).1 (hok (ck, cp) (by simp)).2
      cases ht : Session.start_expt_run_training (envs ck) ck dockerised
          log_msgs verbose n s with
      | mk ev rest2 =>
        cases rest2 with
        | mk s1 res =>
          rw [ht] at hres
          simp only at hres
          subst hres
          have ih1 := ih (fun kv hkv => hok kv (List.mem_cons_of_mem _ hkv)) s1
          cases ht2 : Session.run_combinations envs dockerised log_msgs verbose
              n (pre2 ++ (k0, p0) :: rest) s1 with
          | mk s2 res2 =>
            rw [ht2] at ih1
            simp only at ih1
            subst ih1
            simp [Session.run_combinations, ht, ht2]

/-- C4 counterexample: one experiment, one matching run (so exactly one
combination is scheduled) and a session whose `fit()` raises a
`ValueError`: `start_proc` does not return a mapping with the failed
combination marked — the exception propagates and the caller receives no
mapping at all. -/
theorem C4_counterexample :
    (training_combinations [⟨"e"⟩] [⟨⟨"p", "e", "r"⟩⟩]).length = 1 ∧
    (Session.start_proc (fun _ => ⟨none, some .valueError⟩) [⟨"e"⟩]
        [⟨⟨"p", "e", "r"⟩⟩] false false false 1 initState).2
      = .error .valueError := by
  refine ⟨by decide, by decide⟩

/-- C4 (amended): only when every scheduled combination's session succeeds
does `start_proc` return the complete mapping over all scheduled
combination keys (each mapped to its output paths).  Any session failure
aborts the whole scheduling run: the dict comprehension propagates the
exception (a non-`OSError` training exception surfaces as itself, a
tolerated `OSError` surfaces as the `NameError` from the unbound
`results`), and the caller receives no mapping, not even for combinations
that had already succeeded. -/
theorem C4_start_proc_all_or_abort (envs : CombKey → Env)
    (experiments : List ExptRecord) (runs : List RunRecord)
    (dockerised log_msgs verbose : Bool) (n : Nat) (s : GState) :
    ((∀ kk, (envs kk).connFail = none ∧ (envs kk).fitExn = none) →
      (Session.start_proc envs experiments runs dockerised log_msgs verbose n
          s).2 =
        .ok ((training_combinations experiments runs).map (fun kv =>
          (kv.1, [kv.1.project_id ++ "/" ++ kv.1.expt_id ++ "/" ++
            kv.1.run_id])))) ∧
    (∀ pre k0 p0 rest e,
      training_combinations experiments runs = pre ++ (k0, p0) :: rest →
      (∀ kv ∈ pre, (envs kv.1).connFail = none ∧ (envs kv.1).fitExn = none) →
      (envs k0).connFail = none → (envs k0).fitExn = some e →
      e.isOSError = false →
      (Session.start_proc envs experiments runs dockerised log_msgs verbose n
          s).2 = .error e) ∧
    (∀ pre k0 p0 rest,
      training_combinations experiments runs = pre ++ (k0, p0) :: rest →
      (∀ kv ∈ pre, (envs kv.1).connFail = none ∧ (envs kv.1).fitExn = none) →
      (envs k0).connFail = none → (envs k0).fitExn = some .osError →
      (Session.start_proc envs experiments runs dockerised log_msgs verbose n
          s).2 = .error .nameError) := by
  refine ⟨?_, ?_, ?_⟩
  · intro hok
    exact run_combinations_ok envs dockerised log_msgs verbose n
      (training_combinations experiments runs) hok s
  · intro pre k0 p0 rest e hcombos hpre hc hf he
    have hfail : ∀ s2, (Session.start_expt_run_training (envs k0) k0 dockerised
        log_msgs verbose n s2).2.2 = .error e := by
      intro s2
      have h := start_expt_fit_fail (envs k0) k0 dockerised log_msgs verbose
        n s2 e hc hf
      rw [he] at h
      simpa using h
    have h := run_combinations_append_error envs dockerised log_msgs verbose n
      pre k0 p0 rest e hpre hfail s
    simpa only [Session.start_proc, hcombos] using h
  · intro pre k0 p0 rest hcombos hpre hc hf
    have hfail : ∀ s2, (Session.start_expt_run_training (envs k0) k0 dockerised
        log_msgs verbose n s2).2.2 = .error .nameError := by
      intro s2
      have h := start_expt_fit_fail (envs k0) k0 dockerised log_msgs verbose
        n s2 .osError hc hf
      simpa only [PyExn.isOSError, if_true] using h
    have h := run_combinations_append_error envs dockerised log_msgs verbose n
      pre k0 p0 rest .nameError hpre hfail s
    simpa only [Session.start_proc, hcombos] using h

/-- Witness for C4 at concrete inputs, over a two-combination schedule:
an all-success run returns the complete two-entry mapping; when the first
combination succeeds and only the second one's `fit()` raises a
`ValueError`, the run still aborts with that exception (the first
combination's result is lost); when the second raises an `OSError`, the
run aborts with the resulting `NameError`. -/
theorem C4_witness :
    (Session.start_proc (fun _ => ⟨none, none⟩) [⟨"e"⟩]
        [⟨⟨"p", "e", "r1"⟩⟩, ⟨⟨"p", "e", "r2"⟩⟩] false false false 1
        initState).2
      = .ok [(⟨"p", "e", "r1"⟩, ["p/e/r1"]), (⟨"p", "e", "r2"⟩, ["p/e/r2"])] ∧
    (Session.start_proc
        (fun k => if k.run_id = "r2" then ⟨none, some .valueError⟩
          else ⟨none, none⟩) [⟨"e"⟩]
        [⟨⟨"p", "e", "r1"⟩⟩, ⟨⟨"p", "e", "r2"⟩⟩] false false false 1
        initState).2 = .error .valueError ∧
    (Session.start_proc
        (fun k => if k.run_id = "r2" then ⟨none, some .osError⟩
          else ⟨none, none⟩) [⟨"e"⟩]
        [⟨⟨"p", "e", "r1"⟩⟩, ⟨⟨"p", "e", "r2"⟩⟩] false false false 1
        initState).2 = .error .nameError := by
  refine ⟨?_, ?_, ?_⟩
  · have h := (C4_start_proc_all_or_abort (fun _ => ⟨none, none⟩) [⟨"e"⟩]
      [⟨⟨"p", "e", "r1"⟩⟩, ⟨⟨"p", "e", "r2"⟩⟩] false false false 1
      initState).1 (fun _ => ⟨rfl, rfl⟩)
    rw [h]
    decide
  · exact (C4_start_proc_all_or_abort
      (fun k => if k.run_id = "r2" then ⟨none, some .valueError⟩
        else ⟨none, none⟩) [⟨"e"⟩]
      [⟨⟨"p", "e", "r1"⟩⟩, ⟨⟨"p", "e", "r2"⟩⟩] false false false 1
      initState).2.1
      [(⟨"p", "e", "r1"⟩, (⟨"e"⟩, ⟨⟨"p", "e", "r1"⟩⟩))] ⟨"p", "e", "r2"⟩
      (⟨"e"⟩, ⟨⟨"p", "e", "r2"⟩⟩) [] .valueError (by decide) (by decide)
      (by decide) (by decide) (by decide)
  · exact (C4_start_proc_all_or_abort
      (fun k => if k.run_id = "r2" then ⟨none, some .osError⟩
        else ⟨none, none⟩) [⟨"e"⟩]
      [⟨⟨"p", "e", "r1"⟩⟩, ⟨⟨"p", "e", "r2"⟩⟩] false false false 1
      initState).2.2
      [(⟨"p", "e", "r1"⟩, (⟨"e"⟩, ⟨⟨"p", "e", "r1"⟩⟩))] ⟨"p", "e", "r2"⟩
      (⟨"e"⟩, ⟨⟨"p", "e", "r2"⟩⟩) [] (by decide) (by decide) (by decide)
      (by decide)

/-! ## C5: the scheduling loop is an inner join keyed by run keys -/

theorem dictInsert_fresh {α : Type} (m : List (CombKey × α)) (k : CombKey)
    (v : α) (h : k ∉ m.map Prod.fst) :
    dictInsert m k v = m ++ [(k, v)] := by
  have hany : ¬(m.any (fun kv => kv.1 = k) = true) := by
    simp only [List.any_eq_true, decide_eq_true_eq]
    rintro ⟨kv, hkv, hk⟩
    exact h (List.mem_map.mpr ⟨kv, hkv, hk⟩)
  rw [dictInsert, if_neg hany]

theorem mem_dictInsert {α : Type} {m : List (CombKey × α)} {k : CombKey}
    {v : α} {x : CombKey × α} (hx : x ∈ dictInsert m k v) :
    x ∈ m ∨ x = (k, v) := by
  unfold dictInsert at hx
  by_cases hc : m.any (fun kv => kv.1 = k) = true
  · rw [if_pos hc] at hx
    rcases List.mem_map.mp hx with ⟨y, hy, hxy⟩
    by_cases hk : y.1 = k
    · right
      rw [← hxy, if_pos hk]
    · left
      rw [← hxy, if_neg hk]
      exact hy
  · rw [if_neg hc] at hx
    rcases List.mem_append.mp hx with h | h
    · exact Or.inl h
    · exact Or.inr (by simpa using h)

theorem inner_foldl_eq (expt : ExptRecord) (runs : List RunRecord) :
    ∀ acc : List (CombKey × (ExptRecord × RunRecord)),
      (∀ r ∈ runs, r.key.expt_id = expt.expt_id → r.key ∉ acc.map Prod.fst) →
      ((runs.filter (fun r => r.key.expt_id = expt.expt_id)).map
        (fun r => r.key)).Nodup →
      runs.foldl (fun acc2 run_record =>
          if run_record.key.expt_id = expt.expt_id then
            dictInsert acc2 run_record.key (expt, run_record)
          else acc2) acc
        = acc ++ (runs.filter (fun r => r.key.expt_id = expt.expt_id)).map
            (fun r => (r.key, (expt, r))) := by
  induction runs with
  | nil =>
    intro acc _ _
    simp
  | cons r rest ih =>
    intro acc hdisj hnd
    by_cases hm : r.key.expt_id = expt.expt_id
    · have hfilter : (r :: rest).filter (fun r2 => r2.key.expt_id = expt.expt_id)
          = r :: rest.filter (fun r2 => r2.key.expt_id = expt.expt_id) := by
        simp [List.filter_cons, hm]
      rw [hfilter] at hnd
      simp only [List.map_cons, List.nodup_cons] at hnd
      obtain ⟨hhead, htail⟩ := hnd
      have hdisj2 : ∀ r2 ∈ rest, r2.key.expt_id = expt.expt_id →
          r2.key ∉ (acc ++ [(r.key, (expt, r))]).map Prod.fst := by
        intro r2 hr2 hm2
        simp only [List.map_append, List.mem_append, List.map_cons,
          List.map_nil, List.mem_singleton]
        rintro (hin | hin)
        · exact hdisj r2 (List.mem_cons_of_mem _ hr2) hm2 hin
        · refine hhead ?_
          rw [← hin]
          exact List.mem_map.mpr
            ⟨r2, List.mem_filter.mpr ⟨hr2, by simp [hm2]⟩, rfl⟩
      simp only [List.foldl_cons, if_pos hm]
      rw [dictInsert_fresh _ _ _ (hdisj r (by simp) hm)]
      rw [ih (acc ++ [(r.key, (expt, r))]) hdisj2 htail]
      rw [hfilter]
      simp [List.append_assoc]
    · have hfilter : (r :: rest).filter (fun r2 => r2.key.expt_id = expt.expt_id)
          = rest.filter (fun r2 => r2.key.expt_id = expt.expt_id) := by
        simp [List.filter_cons, hm]
      rw [hfilter] at hnd
      simp only [List.foldl_cons, if_neg hm]
      rw [ih acc (fun r2 h2 => hdisj r2 (List.mem_cons_of_mem _ h2)) hnd]
      rw [hfilter]

theorem outer_foldl_eq (runs : List RunRecord) (experiments : List ExptRecord) :
    ∀ acc,
      (∀ x ∈ matchingPairs experiments runs, x.1 ∉ acc.map Prod.fst) →
      ((matchingPairs experiments runs).map Prod.fst).Nodup →
      experiments.foldl (fun acc expt_record =>
          runs.foldl (fun acc2 run_record =>
            if run_record.key.expt_id = expt_record.expt_id then
              dictInsert acc2 run_record.key (expt_record, run_record)
            else acc2) acc) acc
        = acc ++ matchingPairs experiments runs := by
  induction experiments with
  | nil =>
    intro acc _ _
    simp [matchingPairs]
  | cons e rest ih =>
    intro acc hdisj hnd
    have hmp : matchingPairs (e :: rest) runs
        = (runs.filter (fun r => r.key.expt_id = e.expt_id)).map
            (fun r => (r.key, (e, r))) ++ matchingPairs rest runs := by
      simp [matchingPairs]
    rw [hmp] at hdisj hnd
    rw [List.map_append, List.nodup_append] at hnd
    obtain ⟨hnd1, hnd2, hdisj12⟩ := hnd
    have hnd1' : ((runs.filter (fun r => r.key.expt_id = e.expt_id)).map
        (fun r => r.key)).Nodup := by
      simpa [List.map_map, Function.comp] using hnd1
    have hinner_disj : ∀ r ∈ runs, r.key.expt_id = e.expt_id →
        r.key ∉ acc.map Prod.fst := by
      intro r hr hm
      exact hdisj (r.key, (e, r))
        (List.mem_append.mpr (Or.inl (List.mem_map.mpr
          ⟨r, List.mem_filter.mpr ⟨hr, by simp [hm]⟩, rfl⟩)))
    simp only [List.foldl_cons]
    rw [inner_foldl_eq e runs acc hinner_disj hnd1']
    have hdisj3 : ∀ x ∈ matchingPairs rest runs,
        x.1 ∉ (acc ++ (runs.filter (fun r => r.key.expt_id = e.expt_id)).map
          (fun r => (r.key, (e, r)))).map Prod.fst := by
      intro x hx
      simp only [List.map_append, List.mem_append]
      rintro (hin | hin)
      · exact hdisj x (List.mem_append.mpr (Or.inr hx)) hin
      · exact hdisj12 hin (List.mem_map.mpr ⟨x, hx, rfl⟩)
    rw [ih (acc ++ (runs.filter (fun r => r.key.expt_id = e.expt_id)).map
      (fun r => (r.key, (e, r)))) hdisj3 hnd2]
    rw [List.append_assoc, ← hmp]

theorem foldl_inner_preserves (expt : ExptRecord)
    (P : CombKey × (ExptRecord × RunRecord) → Prop) (runs : List RunRecord) :
    ∀ acc, (∀ x ∈ acc, P x) →
      (∀ r ∈ runs, r.key.expt_id = expt.expt_id → P (r.key, (expt, r))) →
      ∀ x ∈ runs.foldl (fun acc2 run_record =>
          if run_record.key.expt_id = expt.expt_id then
            dictInsert acc2 run_record.key (expt, run_record)
          else acc2) acc, P x := by
  induction runs with
  | nil =>
    intro acc hacc _ x hx
    exact hacc x hx
  | cons r rest ih =>
    intro acc hacc hP x hx
    simp only [List.foldl_cons] at hx
    by_cases hm : r.key.expt_id = expt.expt_id
    · rw [if_pos hm] at hx
      refine ih (dictInsert acc r.key (expt, r)) ?_
        (fun r2 h2 => hP r2 (List.mem_cons_of_mem _ h2)) x hx
      intro y hy
      rcases mem_dictInsert hy with h | h
      · exact hacc y h
      · rw [h]
        exact hP r (by simp) hm
    · rw [if_neg hm] at hx
      exact ih acc hacc (fun r2 h2 => hP r2 (List.mem_cons_of_mem _ h2)) x hx

theorem foldl_outer_preserves (P : CombKey × (ExptRecord × RunRecord) → Prop)
    (runs : List RunRecord) (experiments : List ExptRecord) :
    ∀ acc, (∀ x ∈ acc, P x) →
      (∀ e ∈ experiments, ∀ r ∈ runs, r.key.expt_id = e.expt_id →
        P (r.key, (e, r))) →
      ∀ x ∈ experiments.foldl (fun acc expt_record =>
          runs.foldl (fun acc2 run_record =>
            if run_record.key.expt_id = expt_record.expt_id then
              dictInsert acc2 run_record.key (expt_record, run_record)
            else acc2) acc) acc, P x := by
  induction experiments with
  | nil =>
    intro acc hacc _ x hx
    exact hacc x hx
  | cons e rest ih =>
    intro acc hacc hP x hx
    simp only [List.foldl_cons] at hx
    exact ih _ (foldl_inner_preserves e P runs acc hacc (hP e (by simp)))
      (fun e2 he2 => hP e2 (List.mem_cons_of_mem _ he2)) x hx

/-- C5 counterexample: two experiment records sharing the same
`expt_id = "A"` and one run referencing `"A"` give two matching
(experiment, run) pairs, but the dict keyed by the run's key collapses
them into a single combination (the later pair overwrites the earlier
one) — not exactly one combination per matching pair as the claim states
for every input list. -/
theorem C5_counterexample :
    (matchingPairs [⟨"A"⟩, ⟨"A"⟩] [⟨⟨"p", "A", "r"⟩⟩]).length = 2 ∧
    (training_combinations [⟨"A"⟩, ⟨"A"⟩] [⟨⟨"p", "A", "r"⟩⟩]).length = 1 := by
  refine ⟨by decide, by decide⟩

/-- C5 (amended): every entry of the `training_combinations` dict comes
from a matching (experiment, run) pair — it is keyed by that run's key and
its experiment and run records agree on `expt_id`, so no combination is
ever produced for a mismatched pair; and provided the matching pairs
produce pairwise-distinct combination keys (as when experiment ids are
unique and run keys are unique), the dict is exactly the inner join: one
combination per matching pair, in scheduling order, keyed by the run's
`(project_id, expt_id, run_id)`.  With colliding keys, later matching
pairs overwrite earlier ones. -/
theorem C5_inner_join (experiments : List ExptRecord) (runs : List RunRecord) :
    (∀ x ∈ training_combinations experiments runs,
       x.2.2.key = x.1 ∧ x.2.2.key.expt_id = x.2.1.expt_id ∧
       x.2.1 ∈ experiments ∧ x.2.2 ∈ runs) ∧
    (((matchingPairs experiments runs).map Prod.fst).Nodup →
       training_combinations experiments runs
         = matchingPairs experiments runs) := by
  constructor
  · intro x hx
    refine foldl_outer_preserves (fun y => y.2.2.key = y.1 ∧
      y.2.2.key.expt_id = y.2.1.expt_id ∧ y.2.1 ∈ experiments ∧ y.2.2 ∈ runs)
      runs experiments [] (by simp) ?_ x ?_
    · intro e he r hr hm
      exact ⟨rfl, hm, he, hr⟩
    · simpa [training_combinations] using hx
  · intro hnd
    have h := outer_foldl_eq runs experiments [] (by simp) hnd
    simpa [training_combinations] using h

/-- Witness for C5: the spec's own scenario — experiments `E1(id = A)`,
`E2(id = B)` and runs `R1(expt = A)`, `R2(expt = B)`, `R3(expt = B)` with
distinct run keys — yields exactly the three combinations `(A, R1)`,
`(B, R2)`, `(B, R3)` and nothing for the mismatched pairs. -/
theorem C5_witness :
    ((matchingPairs [⟨"A"⟩, ⟨"B"⟩]
        [⟨⟨"p", "A", "r1"⟩⟩, ⟨⟨"p", "B", "r2"⟩⟩, ⟨⟨"p", "B", "r3"⟩⟩]).map
          Prod.fst).Nodup ∧
    training_combinations [⟨"A"⟩, ⟨"B"⟩]
        [⟨⟨"p", "A", "r1"⟩⟩, ⟨⟨"p", "B", "r2"⟩⟩, ⟨⟨"p", "B", "r3"⟩⟩]
      = [(⟨"p", "A", "r1"⟩, (⟨"A"⟩, ⟨⟨"p", "A", "r1"⟩⟩)),
         (⟨"p", "B", "r2"⟩, (⟨"B"⟩, ⟨⟨"p", "B", "r2"⟩⟩)),
         (⟨"p", "B", "r3"⟩, (⟨"B"⟩, ⟨⟨"p", "B", "r3"⟩⟩))] := by
  refine ⟨by decide, ?_⟩
  rw [(C5_inner_join [⟨"A"⟩, ⟨"B"⟩]
    [⟨⟨"p", "A", "r1"⟩⟩, ⟨⟨"p", "B", "r2"⟩⟩, ⟨⟨"p", "B", "r3"⟩⟩]).2 (by decide)]
  decide
